import Mathlib

/-!
Verification of the Prep2Hire rule-based mock-interview backend.

The Python sources (`interview_engine.py`, `scoring_engine.py`,
`resume_parser.py`, `jd_parser.py`, `main.py`) are shallowly embedded below:
pure functions become Lean functions over `String` / `List Char` / `ℚ` / `Int`,
the mutable engine state becomes explicit state passing, and the regular
expressions used by the code are translated into explicit character scanners
with the exact semantics the patterns have on the inputs involved.

Python float arithmetic is modelled with exact rationals; at the only
configuration the claims touch (`max_time = 60`) the float computations of the
source coincide with exact rational arithmetic on the branch boundaries
(`60*0.6 == 36.0` and `60*0.8 == 48.0` hold exactly in IEEE doubles), and the
quantities being truncated are always at distance ≥ 1/10 from the nearest
integer, far beyond double rounding error.  Python string predicates
(`str.lower`, `str.strip`, `str.split`, `str.title`, `\w`, `\s`, `\b`) are
modelled at their ASCII meaning, which agrees with Python on every string
appearing in the source and in the theorems below.
-/

/-! ### Character and list utilities -/

/-- Python `\s` / `str.strip` whitespace characters (ASCII range). -/
def isPySpace (c : Char) : Bool :=
  c == ' ' || c == '\t' || c == '\n' || c == '\r' || c == '\x0b' || c == '\x0c'

/-- Python regex `\w` word character (ASCII range). -/
def isWordChar (c : Char) : Bool :=
  c.isAlpha || c.isDigit || c == '_'

/-- ASCII uppercase letter, the regex class `[A-Z]`. -/
def isUpperAZ (c : Char) : Bool :=
  'A' ≤ c && c ≤ 'Z'

/-- `needle` occurs at the very start of `hay`. -/
def startsWithL : List Char → List Char → Bool
  | [], _ => true
  | _ :: _, [] => false
  | n :: ns, h :: hs => n == h && startsWithL ns hs

/-- Python substring containment (`needle in hay`). -/
def containsL (needle : List Char) : List Char → Bool
  | [] => startsWithL needle []
  | h :: hs => startsWithL needle (h :: hs) || containsL needle hs

/-- Python `needle in hay` on strings. -/
def strContains (hay needle : String) : Bool :=
  containsL needle.toList hay.toList

/-- Python `str.lower` (ASCII). -/
def lowerL (cs : List Char) : List Char := cs.map Char.toLower

/-- Python `str.strip`: drop leading and trailing whitespace. -/
def stripL (cs : List Char) : List Char :=
  ((cs.dropWhile isPySpace).reverse.dropWhile isPySpace).reverse

/-- Python `str.strip` on strings. -/
def pyStrip (s : String) : String := ⟨stripL s.toList⟩

/-- Number of whitespace-separated tokens, i.e. `len(s.split())`.
The flag records whether the previous character was a non-space. -/
def wordCountAux : Bool → List Char → Nat
  | _, [] => 0
  | inw, c :: rest =>
    if isPySpace c then wordCountAux false rest
    else (if inw then 0 else 1) + wordCountAux true rest

/-- `len(s.split())` for a Python string. -/
def pyWordCount (s : String) : Nat := wordCountAux false s.toList

/-- Python `str.split()` (split on whitespace runs, dropping empties);
the accumulator holds the current token reversed. -/
def splitWsAux : List Char → List Char → List String
  | cur, [] => if cur.isEmpty then [] else [⟨cur.reverse⟩]
  | cur, c :: rest =>
    if isPySpace c then
      if cur.isEmpty then splitWsAux [] rest
      else (⟨cur.reverse⟩ : String) :: splitWsAux [] rest
    else splitWsAux (c :: cur) rest

/-- Python `str.split()` on strings. -/
def pySplit (s : String) : List String := splitWsAux [] s.toList

/-- Python `str.title` (ASCII): upper-case every letter that does not follow a
letter, lower-case the other letters; the flag records whether the previous
character was a letter. -/
def titleCaseAux : Bool → List Char → List Char
  | _, [] => []
  | prevAlpha, c :: rest =>
    (if c.isAlpha then (if prevAlpha then c.toLower else c.toUpper) else c)
      :: titleCaseAux c.isAlpha rest

/-- Python `str.title` on strings. -/
def pyTitle (s : String) : String := ⟨titleCaseAux false s.toList⟩

/-! ### InterviewEngine.adjust_difficulty (interview_engine.py lines 122-140)

The engine stores `current_difficulty` as one of the strings
`"easy"/"medium"/"hard"`; the method reads the current value, updates it from
the mean of `recent_scores`, and returns the new value.  Modelled as a pure
state transformer `String → List ℚ → String`. -/

def adjust_difficulty (current : String) (recent_scores : List ℚ) : String :=
  if recent_scores = [] then current
  else
    let avg_score : ℚ := recent_scores.sum / recent_scores.length
    if 75 < avg_score then
      if current = "easy" then "medium"
      else if current = "medium" then "hard"
      else current
    else if avg_score < 40 then
      if current = "hard" then "medium"
      else if current = "medium" then "easy"
      else current
    else current

/-! ### InterviewEngine.should_terminate_early (interview_engine.py lines 145-152) -/

def should_terminate_early (recent_scores : List ℚ) : Bool :=
  if recent_scores.length < 3 then false
  else
    let last_three := recent_scores.drop (recent_scores.length - 3)
    decide (last_three.sum / 3 < 30)

/-- Position of a difficulty string in the `difficulty_levels` list
`['easy', 'medium', 'hard']`; used only to state the "single step" part of C1. -/
def levelIndex (d : String) : Int :=
  if d = "easy" then 0 else if d = "medium" then 1 else 2

/-- C1: `adjust_difficulty` is a 3-state single-step chain over
{easy, medium, hard}: for a non-empty score list with mean m, m > 75 steps up
one level (hard stays hard), m < 40 steps down one level (easy stays easy),
m ∈ [40,75] and the empty list leave the difficulty unchanged, and no call
moves between easy and hard directly. -/
theorem C1_adjust_difficulty_chain (d : String) (scores : List ℚ) :
    (adjust_difficulty d [] = d)
    ∧ (scores ≠ [] → 75 < scores.sum / scores.length →
        (d = "easy" → adjust_difficulty d scores = "medium")
        ∧ (d = "medium" → adjust_difficulty d scores = "hard")
        ∧ (d = "hard" → adjust_difficulty d scores = "hard"))
    ∧ (scores ≠ [] → scores.sum / scores.length < 40 →
        (d = "hard" → adjust_difficulty d scores = "medium")
        ∧ (d = "medium" → adjust_difficulty d scores = "easy")
        ∧ (d = "easy" → adjust_difficulty d scores = "easy"))
    ∧ (scores ≠ [] → 40 ≤ scores.sum / scores.length →
        scores.sum / scores.length ≤ 75 → adjust_difficulty d scores = d)
    ∧ (¬(d = "easy" ∧ adjust_difficulty d scores = "hard"))
    ∧ (¬(d = "hard" ∧ adjust_difficulty d scores = "easy"))
    ∧ (levelIndex (adjust_difficulty d scores) - levelIndex d ≤ 1
        ∧ levelIndex d - levelIndex (adjust_difficulty d scores) ≤ 1) := by
  refine ⟨by simp [adjust_difficulty], ?_, ?_, ?_, ?_, ?_, ?_⟩
  · intro hne hm
    simp only [adjust_difficulty, if_neg hne, if_pos hm]
    refine ⟨fun h => ?_, fun h => ?_, fun h => ?_⟩ <;> simp [h]
  · intro hne hm
    have hm' : ¬ (75 : ℚ) < scores.sum / scores.length := by
      intro h
      exact absurd (lt_trans hm (lt_trans (by norm_num) h)) (lt_irrefl _)
    simp only [adjust_difficulty, if_neg hne, if_neg hm', if_pos hm]
    refine ⟨fun h => ?_, fun h => ?_, fun h => ?_⟩ <;> simp [h]
  · intro hne h40 h75
    have hm' : ¬ (75 : ℚ) < scores.sum / scores.length := not_lt.mpr h75
    have hm'' : ¬ scores.sum / scores.length < (40 : ℚ) := not_lt.mpr h40
    simp only [adjust_difficulty, if_neg hne, if_neg hm', if_neg hm'']
  · rintro ⟨hd, hres⟩
    subst hd
    simp only [adjust_difficulty] at hres
    split_ifs at hres <;> simp_all
  · rintro ⟨hd, hres⟩
    subst hd
    simp only [adjust_difficulty] at hres
    split_ifs at hres <;> simp_all
  · have hmem : adjust_difficulty d scores = d
        ∨ (d = "easy" ∧ adjust_difficulty d scores = "medium")
        ∨ (d = "medium" ∧ adjust_difficulty d scores = "hard")
        ∨ (d = "medium" ∧ adjust_difficulty d scores = "easy")
        ∨ (d = "hard" ∧ adjust_difficulty d scores = "medium") := by
      simp only [adjust_difficulty]
      split_ifs <;> simp_all
    rcases hmem with h | ⟨h1, h2⟩ | ⟨h1, h2⟩ | ⟨h1, h2⟩ | ⟨h1, h2⟩
    · simp [h]
    all_goals subst h1
    all_goals rw [h2]
    all_goals simp [levelIndex]

/-- Witness for C1 at a concrete input: from "easy" with scores [80, 90]
(mean 85 > 75) the difficulty steps to "medium". -/
theorem C1_adjust_difficulty_chain_witness :
    adjust_difficulty "easy" [80, 90] = "medium" := by
  have h := C1_adjust_difficulty_chain "easy" [80, 90]
  exact (h.2.1 (by simp) (by norm_num)).1 rfl

/-- C3: `should_terminate_early` is false for fewer than 3 scores; with at
least 3 scores it is true iff the mean of the last 3 is strictly below 30;
[10,10,10] and [10,10,50] give true, [50,50,50] gives false. -/
theorem C3_should_terminate_early_spec (scores : List ℚ) :
    (scores.length < 3 → should_terminate_early scores = false)
    ∧ (3 ≤ scores.length →
        (should_terminate_early scores = true ↔
          (scores.drop (scores.length - 3)).sum / 3 < 30))
    ∧ should_terminate_early [10, 10, 10] = true
    ∧ should_terminate_early [10, 10, 50] = true
    ∧ should_terminate_early [50, 50, 50] = false := by
  refine ⟨?_, ?_, by norm_num [should_terminate_early],
    by norm_num [should_terminate_early], by norm_num [should_terminate_early]⟩
  · intro h
    unfold should_terminate_early
    rw [if_pos h]
  · intro h
    unfold should_terminate_early
    rw [if_neg (not_lt.mpr h)]
    simp

/-- Witness for C3 at a concrete input: a two-score list never terminates
early, and [10,10,50] with mean 70/3 < 30 does. -/
theorem C3_should_terminate_early_witness :
    should_terminate_early [5, 5] = false ∧
    should_terminate_early [10, 10, 50] = true :=
  ⟨(C3_should_terminate_early_spec [5, 5]).1 (by norm_num),
   (C3_should_terminate_early_spec [10, 10, 50]).2.2.2.1⟩

/-! ### ScoringEngine._calculate_time_score (scoring_engine.py lines 118-133)

`time_taken` and `max_time` are Python ints; the intermediate arithmetic is
done in floats and then truncated with `int(...)` (truncation toward zero,
`truncQ` below).  At `max_time = 60` — the only value the callers and the
claims use — `60*0.6` and `60*0.8` are exactly `36.0` and `48.0` in IEEE
doubles and every truncated quantity is at distance ≥ 1/10 from the nearest
integer, so exact rational arithmetic models the float computation
faithfully. -/

/-- Python `int(...)` applied to a rational: truncation toward zero. -/
def truncQ (q : ℚ) : Int :=
  if 0 ≤ q then Int.floor q else Int.ceil q

def calculate_time_score (time_taken : Int) (max_time : Int) : Int :=
  if time_taken ≤ 0 then 0
  else
    let t : ℚ := time_taken
    let optimal_min : ℚ := (max_time : ℚ) * (6/10)
    let optimal_max : ℚ := (max_time : ℚ) * (8/10)
    if optimal_min ≤ t ∧ t ≤ optimal_max then 100
    else if t < optimal_min then truncQ (t / optimal_min * 100)
    else if t ≤ (max_time : ℚ) then
      truncQ (100 - (t - optimal_max) / ((max_time : ℚ) - optimal_max) * 20)
    else max 0 (50 - truncQ ((t - (max_time : ℚ)) / 10))

theorem truncQ_eq_floor (q : ℚ) (h : 0 ≤ q) : truncQ q = Int.floor q := by
  simp [truncQ, h]

/-- The time score at `max_time = 60`, with all branch conditions moved to
the integers and `int(...)` resolved to `Int.floor` (every truncated value is
nonnegative in its branch). -/
theorem time_score_at_60 (s : Int) :
    calculate_time_score s 60 =
      if s ≤ 0 then 0
      else if 36 ≤ s ∧ s ≤ 48 then 100
      else if s < 36 then Int.floor ((s : ℚ) / 36 * 100)
      else if s ≤ 60 then Int.floor (100 - ((s : ℚ) - 48) / 12 * 20)
      else max 0 (50 - Int.floor (((s : ℚ) - 60) / 10)) := by
  have e0 : ((60 : Int) : ℚ) = 60 := by norm_num
  simp only [calculate_time_score, e0]
  have e1 : (60 : ℚ) * (6/10) = 36 := by norm_num
  have e2 : (60 : ℚ) * (8/10) = 48 := by norm_num
  have e3 : (60 : ℚ) - 48 = 12 := by norm_num
  rw [e1, e2, e3]
  by_cases h0 : s ≤ 0
  · rw [if_pos h0, if_pos h0]
  rw [if_neg h0, if_neg h0]
  have hs0 : (0 : ℚ) < (s : ℚ) := by exact_mod_cast lt_of_not_le h0
  by_cases h1 : 36 ≤ s ∧ s ≤ 48
  · have h1' : (36 : ℚ) ≤ (s : ℚ) ∧ (s : ℚ) ≤ 48 :=
      ⟨by exact_mod_cast h1.1, by exact_mod_cast h1.2⟩
    rw [if_pos h1', if_pos h1]
  have h1' : ¬ ((36 : ℚ) ≤ (s : ℚ) ∧ (s : ℚ) ≤ 48) := by
    intro hc
    exact h1 ⟨by exact_mod_cast hc.1, by exact_mod_cast hc.2⟩
  rw [if_neg h1', if_neg h1]
  by_cases h2 : s < 36
  · have h2' : (s : ℚ) < 36 := by exact_mod_cast h2
    rw [if_pos h2', if_pos h2]
    exact truncQ_eq_floor _ (by linarith)
  have h2' : ¬ ((s : ℚ) < 36) := by
    intro hc
    exact h2 (by exact_mod_cast hc)
  rw [if_neg h2', if_neg h2]
  have hge : (36 : Int) ≤ s := le_of_not_lt h2
  by_cases h3 : s ≤ 60
  · have h3' : (s : ℚ) ≤ 60 := by exact_mod_cast h3
    rw [if_pos h3', if_pos h3]
    have hnn : (0 : ℚ) ≤ 100 - ((s : ℚ) - 48) / 12 * 20 := by
      have : ((s : ℚ) - 48) / 12 * 20 ≤ 20 := by
        have h48 : ((s : ℚ) - 48) ≤ 12 := by linarith
        linarith [div_le_one_of_le₀ h48 (by norm_num : (0:ℚ) ≤ 12)]
      linarith
    exact truncQ_eq_floor _ hnn
  have h3' : ¬ ((s : ℚ) ≤ 60) := by
    intro hc
    exact h3 (by exact_mod_cast hc)
  rw [if_neg h3', if_neg h3]
  have h60 : (60 : Int) < s := lt_of_not_le h3
  have h60' : (60 : ℚ) < (s : ℚ) := by exact_mod_cast h60
  rw [truncQ_eq_floor _ (by linarith : (0:ℚ) ≤ ((s:ℚ) - 60) / 10)]

/-- On the whole interval [0, 36] the score is the truncated linear ramp
(the branches for s = 0, 0 < s < 36 and s = 36 agree on this formula). -/
theorem time_score_ramp (s : Int) (h0 : 0 ≤ s) (h36 : s ≤ 36) :
    calculate_time_score s 60 = Int.floor ((s : ℚ) / 36 * 100) := by
  rw [time_score_at_60]
  rcases eq_or_lt_of_le h0 with h | h
  · rw [if_pos (by omega : s ≤ 0), ← h]
    norm_num
  rcases eq_or_lt_of_le h36 with h' | h'
  · subst h'
    rw [if_neg (by omega : ¬ (36:Int) ≤ 0), if_pos (by omega : (36:Int) ≤ 36 ∧ (36:Int) ≤ 48)]
    norm_num
  · rw [if_neg (by omega : ¬ s ≤ 0), if_neg (by omega : ¬ (36 ≤ s ∧ s ≤ 48)),
      if_pos h']

/-- On the whole interval [48, 60] the score is the truncated linear penalty
(the branches for s = 48 and 48 < s ≤ 60 agree on this formula). -/
theorem time_score_penalty (s : Int) (h48 : 48 ≤ s) (h60 : s ≤ 60) :
    calculate_time_score s 60 = Int.floor (100 - ((s : ℚ) - 48) / 12 * 20) := by
  rw [time_score_at_60]
  rcases eq_or_lt_of_le h48 with h | h
  · rw [if_neg (by omega : ¬ s ≤ 0), if_pos (by omega : 36 ≤ s ∧ s ≤ 48), ← h]
    norm_num
  · rw [if_neg (by omega : ¬ s ≤ 0), if_neg (by omega : ¬ (36 ≤ s ∧ s ≤ 48)),
      if_neg (by omega : ¬ s < 36), if_pos h60]

/-- Beyond 60 seconds the score is at most 50. -/
theorem time_score_tail_le (s : Int) (h : 60 < s) :
    calculate_time_score s 60 ≤ 50 := by
  rw [time_score_at_60, if_neg (by omega : ¬ s ≤ 0),
    if_neg (by omega : ¬ (36 ≤ s ∧ s ≤ 48)), if_neg (by omega : ¬ s < 36),
    if_neg (by omega : ¬ s ≤ 60)]
  have hfl : (0 : Int) ≤ Int.floor (((s : ℚ) - 60) / 10) := by
    apply Int.le_floor.mpr
    have : (60 : ℚ) < (s : ℚ) := by exact_mod_cast h
    push_cast
    linarith
  exact max_le (by norm_num) (by omega)

/-- On [48, 60] the score is at least 80. -/
theorem time_score_penalty_ge (s : Int) (h48 : 48 ≤ s) (h60 : s ≤ 60) :
    80 ≤ calculate_time_score s 60 := by
  rw [time_score_penalty s h48 h60]
  apply Int.le_floor.mpr
  have hc : (s : ℚ) ≤ 60 := by exact_mod_cast h60
  have : ((s : ℚ) - 48) / 12 * 20 ≤ 20 := by
    have h12 : ((s : ℚ) - 48) ≤ 12 := by linarith
    linarith [div_le_one_of_le₀ h12 (by norm_num : (0:ℚ) ≤ 12)]
  push_cast
  linarith

/-- C2: the time-efficiency score at max_time = 60, as a function of integer
time_taken s: 0 for s ≤ 0; exactly 100 iff s ∈ [36,48]; (s/36)*100 truncated
for 0 < s < 36; 100 minus up to 20 points proportional to (s-48)/(60-48)
(truncated) for 48 < s ≤ 60; max(0, 50 - (s-60)/10 truncated) for s > 60;
monotone non-decreasing on [0,36] and non-increasing beyond 48. -/
theorem C2_time_efficiency_piecewise (s : Int) :
    (s ≤ 0 → calculate_time_score s 60 = 0)
    ∧ (calculate_time_score s 60 = 100 ↔ (36 ≤ s ∧ s ≤ 48))
    ∧ (0 < s → s < 36 →
        calculate_time_score s 60 = truncQ ((s : ℚ) / 36 * 100))
    ∧ (48 < s → s ≤ 60 →
        calculate_time_score s 60 =
          truncQ (100 - ((s : ℚ) - 48) / (60 - 48) * 20))
    ∧ (60 < s →
        calculate_time_score s 60 = max 0 (50 - truncQ (((s : ℚ) - 60) / 10)))
    ∧ (∀ a b : Int, 0 ≤ a → a ≤ b → b ≤ 36 →
        calculate_time_score a 60 ≤ calculate_time_score b 60)
    ∧ (∀ a b : Int, 48 ≤ a → a ≤ b →
        calculate_time_score b 60 ≤ calculate_time_score a 60) := by
  refine ⟨?_, ⟨?_, ?_⟩, ?_, ?_, ?_, ?_, ?_⟩
  · intro h
    rw [time_score_at_60, if_pos h]
  · -- score 100 only happens inside the optimal window
    intro h100
    by_contra hc
    rcases (by omega : s ≤ 0 ∨ (0 < s ∧ s < 36) ∨ (48 < s ∧ s ≤ 60) ∨ 60 < s)
      with h | ⟨hl, hr⟩ | ⟨hl, hr⟩ | h
    · rw [time_score_at_60, if_pos h] at h100
      exact absurd h100 (by norm_num)
    · have := time_score_ramp s (le_of_lt hl) (le_of_lt hr)
      rw [this] at h100
      have hlt : Int.floor ((s : ℚ) / 36 * 100) < 100 := by
        apply Int.floor_lt.mpr
        have hs35 : (s : ℚ) ≤ 35 := by exact_mod_cast (by omega : s ≤ 35)
        push_cast
        nlinarith
      omega
    · have := time_score_penalty s (by omega) hr
      rw [this] at h100
      have hlt : Int.floor (100 - ((s : ℚ) - 48) / 12 * 20) < 100 := by
        apply Int.floor_lt.mpr
        have hs49 : (49 : ℚ) ≤ (s : ℚ) := by exact_mod_cast (by omega : (49:Int) ≤ s)
        push_cast
        nlinarith
      omega
    · have := time_score_tail_le s h
      omega
  · rintro ⟨h1, h2⟩
    rw [time_score_at_60, if_neg (by omega : ¬ s ≤ 0), if_pos ⟨h1, h2⟩]
  · intro h0 h36
    have hq : (0 : ℚ) < (s : ℚ) := by exact_mod_cast h0
    rw [time_score_ramp s (le_of_lt h0) (le_of_lt h36),
      truncQ_eq_floor _ (by linarith)]
  · intro h48 h60
    rw [time_score_penalty s (by omega) h60]
    have e : ((60 : ℚ) - 48) = 12 := by norm_num
    rw [e, truncQ_eq_floor]
    have hc : (s : ℚ) ≤ 60 := by exact_mod_cast h60
    have : ((s : ℚ) - 48) / 12 * 20 ≤ 20 := by
      have h12 : ((s : ℚ) - 48) ≤ 12 := by linarith
      linarith [div_le_one_of_le₀ h12 (by norm_num : (0:ℚ) ≤ 12)]
    linarith
  · intro h
    rw [time_score_at_60, if_neg (by omega : ¬ s ≤ 0),
      if_neg (by omega : ¬ (36 ≤ s ∧ s ≤ 48)), if_neg (by omega : ¬ s < 36),
      if_neg (by omega : ¬ s ≤ 60)]
    have h60' : (60 : ℚ) < (s : ℚ) := by exact_mod_cast h
    rw [truncQ_eq_floor _ (by linarith : (0:ℚ) ≤ ((s:ℚ) - 60) / 10)]
  · intro a b ha hab hb
    rw [time_score_ramp a ha (le_trans hab hb), time_score_ramp b (le_trans ha hab) hb]
    apply Int.floor_le_floor
    have : (a : ℚ) ≤ (b : ℚ) := by exact_mod_cast hab
    have hnn : (0 : ℚ) ≤ (a : ℚ) := by exact_mod_cast ha
    nlinarith
  · intro a b ha hab
    by_cases hb60 : b ≤ 60
    · rw [time_score_penalty a ha (le_trans hab hb60),
        time_score_penalty b (le_trans ha hab) hb60]
      apply Int.floor_le_floor
      have : (a : ℚ) ≤ (b : ℚ) := by exact_mod_cast hab
      nlinarith
    by_cases ha60 : a ≤ 60
    · exact le_trans (time_score_tail_le b (by omega))
        (le_trans (by norm_num) (time_score_penalty_ge a ha ha60))
    · -- both beyond 60
      rw [time_score_at_60, time_score_at_60,
        if_neg (by omega : ¬ a ≤ 0), if_neg (by omega : ¬ (36 ≤ a ∧ a ≤ 48)),
        if_neg (by omega : ¬ a < 36), if_neg ha60,
        if_neg (by omega : ¬ b ≤ 0), if_neg (by omega : ¬ (36 ≤ b ∧ b ≤ 48)),
        if_neg (by omega : ¬ b < 36), if_neg (by omega : ¬ b ≤ 60)]
      have hfl : Int.floor (((a : ℚ) - 60) / 10) ≤ Int.floor (((b : ℚ) - 60) / 10) := by
        apply Int.floor_le_floor
        have : (a : ℚ) ≤ (b : ℚ) := by exact_mod_cast hab
        linarith
      exact max_le_max (le_refl 0) (by omega)

/-- Witness for C2 at concrete inputs: s = 42 is inside the optimal window
(score 100), s = 18 gives the half ramp 50, and 30 ≤ 42 in the window. -/
theorem C2_time_efficiency_piecewise_witness :
    calculate_time_score 42 60 = 100 ∧ (42 : Int) ≤ 60 ∧
    calculate_time_score (-5) 60 = 0 := by
  refine ⟨?_, by norm_num, ?_⟩
  · exact (C2_time_efficiency_piecewise 42).2.1.2 ⟨by norm_num, by norm_num⟩
  · exact (C2_time_efficiency_piecewise (-5)).1 (by norm_num)

/-! ### ScoringEngine.score_answer (scoring_engine.py lines 27-113)

The answer record returned by `score_answer`: five sub-metrics, the weighted
overall, and the feedback string.  Metric values are exact rationals (the
Python code computes them in floats and rounds to 2 decimals with banker's
rounding, modelled by `round2`). -/

structure AnswerScore where
  accuracy : ℚ
  clarity : ℚ
  depth : ℚ
  relevance : ℚ
  time_efficiency : ℚ
  overall : ℚ
  feedback : String
deriving DecidableEq

/-- Python `round(x)` to the nearest integer, ties to even. -/
def bankRound (x : ℚ) : Int :=
  if x - Int.floor x < 1/2 then Int.floor x
  else if 1/2 < x - Int.floor x then Int.floor x + 1
  else if Int.floor x % 2 = 0 then Int.floor x else Int.floor x + 1

/-- Python `round(x, 2)`. -/
def round2 (q : ℚ) : ℚ := (bankRound (q * 100) : ℚ) / 100

/-- Maximal runs of `\w` characters in a character list, in order; scanner
for the regex `\b\w{4,}\b` (and, filtered by length, for `re.findall` of
that pattern).  The accumulator holds the current run reversed. -/
def wordRunsAux : List Char → List Char → List (List Char)
  | cur, [] => if cur.isEmpty then [] else [cur.reverse]
  | cur, c :: rest =>
    if isWordChar c then wordRunsAux (c :: cur) rest
    else if cur.isEmpty then wordRunsAux [] rest
    else cur.reverse :: wordRunsAux [] rest

def wordRuns (cs : List Char) : List (List Char) := wordRunsAux [] cs

/-- Number of matches of the depth regex `\b[A-Z]{2,}\b|\b\w+\(\)`:
scanning left to right, a maximal `\w`-run matches the first alternative iff
it consists of ≥ 2 uppercase letters only (maximality gives both `\b`s), and
otherwise matches the second alternative iff it is immediately followed by
`()`.  The state is `some (allUpper, len)` while inside a run. -/
def techCountAux : List Char → Option (Bool × Nat) → Nat
  | [], none => 0
  | [], some (au, len) => if au && decide (2 ≤ len) then 1 else 0
  | c :: rest, none =>
    if isWordChar c then techCountAux rest (some (isUpperAZ c, 1))
    else techCountAux rest none
  | c :: rest, some (au, len) =>
    if isWordChar c then techCountAux rest (some (au && isUpperAZ c, len + 1))
    else
      (if (au && decide (2 ≤ len)) || (c == '(' && rest.head? == some ')')
       then 1 else 0) + techCountAux rest none

/-- `len(re.findall(r'\b[A-Z]{2,}\b|\b\w+\(\)', answer))`. -/
def techCount (cs : List Char) : Nat := techCountAux cs none

/-- The eight structural marker phrases of the clarity metric. -/
def structure_markers : List String :=
  ["first", "second", "then", "because", "therefore",
   "however", "for example", "in conclusion"]

/-- Lowercase words of length ≥ 4 of a (lowered) character list as a set:
`set(re.findall(r'\b\w{4,}\b', text))`. -/
def words4 (cs : List Char) : List (List Char) :=
  ((wordRuns cs).filter (fun r => decide (4 ≤ r.length))).dedup

def score_answer (question answer : String) (expected_topics : List String)
    (time_taken : Int) (max_time : Int) : AnswerScore :=
  if answer = "" ∨ (pyStrip answer).length < 10 then
    ⟨0, 0, 0, 0, 0, 0, "Answer is too short or empty."⟩
  else
    let answer_lower : List Char := lowerL answer.toList
    let word_count : Nat := pyWordCount answer
    let topics_covered : Nat :=
      (expected_topics.filter
        (fun topic => containsL (lowerL topic.toList) answer_lower)).length
    let accuracy : ℚ :=
      min 100 (((topics_covered : ℚ) / ((max expected_topics.length 1 : ℕ) : ℚ)) * 100)
    let has_structure : Bool :=
      structure_markers.any (fun m => containsL m.toList answer_lower)
    let clarity : ℚ :=
      min 100 (((word_count : ℚ) / 50) * 50 + (if has_structure then 50 else 0))
    let technical_terms : Nat := techCount answer.toList
    let depth : ℚ :=
      min 100 (((word_count : ℚ) / 100) * 70 + (technical_terms : ℚ) * 5)
    let question_words : List (List Char) := words4 (lowerL question.toList)
    let answer_words : List (List Char) := words4 answer_lower
    let overlap : Nat :=
      (question_words.filter (fun w => answer_words.contains w)).length
    let relevance : ℚ :=
      min 100 (((overlap : ℚ) / ((max question_words.length 1 : ℕ) : ℚ)) * 100)
    let time_efficiency : ℚ := (calculate_time_score time_taken max_time : ℚ)
    let overall : ℚ :=
      accuracy * (30/100) + clarity * (20/100) + depth * (25/100)
        + relevance * (15/100) + time_efficiency * (10/100)
    ⟨round2 accuracy, round2 clarity, round2 depth, round2 relevance,
     round2 time_efficiency, round2 overall,
     "Covered " ++ toString topics_covered ++ "/"
       ++ toString expected_topics.length ++ " expected topics with a "
       ++ (if has_structure then "clear" else "basic") ++ " explanation."⟩

/-- C4: for every question, expected-topics list, time and max-time input,
an empty answer or one whose whitespace-trimmed length is below 10 characters
yields the all-zero record with feedback "Answer is too short or empty.",
with none of the other metric computations contributing. -/
theorem C4_short_answer_guard (question answer : String)
    (expected_topics : List String) (time_taken max_time : Int)
    (h : answer = "" ∨ (pyStrip answer).length < 10) :
    score_answer question answer expected_topics time_taken max_time =
      ⟨0, 0, 0, 0, 0, 0, "Answer is too short or empty."⟩ := by
  unfold score_answer
  rw [if_pos h]

/-- Witness for C4 at a concrete input: the 5-character answer "short". -/
theorem C4_short_answer_guard_witness :
    score_answer "Explain Python." "short" ["Python"] 30 60 =
      ⟨0, 0, 0, 0, 0, 0, "Answer is too short or empty."⟩ :=
  C4_short_answer_guard "Explain Python." "short" ["Python"] 30 60
    (Or.inr (by decide))

/-! ### InterviewEngine state and the submit-answer loop of main.py

`InterviewEngine.__init__` (interview_engine.py lines 14-19) sets
difficulty "easy", question_count 0, max_questions 10.
`conduct_interview` (lines 163-183) increments `question_count`; the
question text it also produces does not affect the counter logic and is
modelled separately by `generate_question` below.  `submit_answer`
(main.py lines 270-320) appends the answer's overall score, then checks
early termination first and the max-question bound second, and only when
both checks fail adjusts the difficulty and generates a further question.
The overall score of the freshly scored answer enters as a parameter
(`score_answer` produces some rational; the invariant holds for all). -/

def max_questions : Nat := 10

structure EngineState where
  current_difficulty : String
  question_count : Nat
deriving DecidableEq

def initEngine : EngineState := ⟨"easy", 0⟩

/-- The effect of `conduct_interview` on the engine state. -/
def conduct_step (e : EngineState) : EngineState :=
  ⟨e.current_difficulty, e.question_count + 1⟩

structure Session where
  engine : EngineState
  scores : List ℚ
deriving DecidableEq

/-- Session state right after `/api/start-interview`: a fresh engine that
has conducted one question, no scores yet. -/
def startSession : Session := ⟨conduct_step initEngine, []⟩

inductive SubmitResult where
  | terminated_early
  | completed
  | next (s : Session)
deriving DecidableEq

/-- The `/api/submit-answer` step of main.py, projected onto engine state
and stored overall scores. -/
def submit_answer (sess : Session) (overall : ℚ) : SubmitResult :=
  let scores' := sess.scores ++ [overall]
  if should_terminate_early scores' then SubmitResult.terminated_early
  else if max_questions ≤ sess.engine.question_count then SubmitResult.completed
  else SubmitResult.next
    ⟨conduct_step ⟨adjust_difficulty sess.engine.current_difficulty scores',
        sess.engine.question_count⟩, scores'⟩

/-- Session states reachable from starting an interview followed by any
sequence of submit-answer steps. -/
inductive ReachableSession : Session → Prop where
  | start : ReachableSession startSession
  | step (s : Session) (overall : ℚ) (s' : Session) :
      ReachableSession s → submit_answer s overall = SubmitResult.next s' →
      ReachableSession s'

/-- C5: in every reachable session state the question count never exceeds
max_questions = 10; the early-termination check short-circuits the
max-question check; and a further question (counter increment) is generated
only when both checks fail, i.e. only when question_count < 10. -/
theorem C5_question_count_never_exceeds_max :
    max_questions = 10
    ∧ (∀ s, ReachableSession s → s.engine.question_count ≤ max_questions)
    ∧ (∀ s overall, should_terminate_early (s.scores ++ [overall]) = true →
        submit_answer s overall = SubmitResult.terminated_early)
    ∧ (∀ s overall s', submit_answer s overall = SubmitResult.next s' →
        should_terminate_early (s.scores ++ [overall]) = false
        ∧ s.engine.question_count < max_questions
        ∧ s'.engine.question_count = s.engine.question_count + 1) := by
  refine ⟨rfl, ?_, ?_, ?_⟩
  · intro s h
    induction h with
    | start => norm_num [startSession, conduct_step, initEngine, max_questions]
    | step s overall s' hr heq ih =>
      simp only [submit_answer] at heq
      split_ifs at heq with h1 h2
      all_goals cases heq
      simp only [conduct_step, max_questions] at h2 ⊢
      omega
  · intro s overall hterm
    simp [submit_answer, hterm]
  · intro s overall s' heq
    simp only [submit_answer] at heq
    split_ifs at heq with h1 h2
    all_goals cases heq
    refine ⟨by simpa using h1, ?_, rfl⟩
    simp only [max_questions] at h2 ⊢
    omega

/-- Witness for C5: the post-start session is reachable and satisfies the
bound. -/
theorem C5_question_count_never_exceeds_max_witness :
    startSession.engine.question_count ≤ max_questions :=
  C5_question_count_never_exceeds_max.2.1 startSession ReachableSession.start

/-! ### ScoringEngine.calculate_final_score (scoring_engine.py lines 138-191)

`avg_scores` is a dict built in insertion order accuracy, clarity, depth,
relevance, time_efficiency (the weight keys) and then overall; `metricNames`
reproduces that iteration order.  `metricVal` is the dict access
`s[metric]` (every score record carries all six keys). -/

def metricNames : List String :=
  ["accuracy", "clarity", "depth", "relevance", "time_efficiency", "overall"]

def metricVal (m : String) (s : AnswerScore) : ℚ :=
  if m = "accuracy" then s.accuracy
  else if m = "clarity" then s.clarity
  else if m = "depth" then s.depth
  else if m = "relevance" then s.relevance
  else if m = "time_efficiency" then s.time_efficiency
  else s.overall

/-- `sum(values)/len(values) if values else 0` for `values = [s[metric] for s
in all_scores ...]`. -/
def avgScore (all_scores : List AnswerScore) (m : String) : ℚ :=
  let values := all_scores.map (metricVal m)
  if values = [] then 0 else values.sum / (values.length : ℚ)

/-- `metric.replace('_', ' ').title()`. -/
def metricLabel (m : String) : String :=
  pyTitle ⟨m.toList.map (fun c => if c == '_' then ' ' else c)⟩

structure FinalReport where
  final_score : ℚ
  skill_breakdown : List (String × ℚ)
  strengths : List String
  weaknesses : List String
  recommendation : String
  hiring_readiness : String
  total_questions : Option Nat
deriving DecidableEq

def calculate_final_score (all_scores : List AnswerScore) : FinalReport :=
  if all_scores = [] then
    ⟨0, [], [], [], "Unable to assess - no answers provided",
      "NOT RECOMMENDED", none⟩
  else
    let strengths :=
      (metricNames.filter (fun m =>
        (m != "overall") && decide (75 ≤ avgScore all_scores m))).map metricLabel
    let weaknesses :=
      (metricNames.filter (fun m =>
        (m != "overall") && decide (avgScore all_scores m < 50))).map metricLabel
    let final_score := avgScore all_scores "overall"
    ⟨round2 final_score,
     metricNames.map (fun m => (m, round2 (avgScore all_scores m))),
     if strengths = [] then ["None identified"] else strengths,
     if weaknesses = [] then ["None identified"] else weaknesses,
     if 80 ≤ final_score then "Excellent - Ready for interviews"
       else if 65 ≤ final_score then "Good - Minor improvements needed"
       else if 50 ≤ final_score then "Fair - Needs practice"
       else "Needs significant improvement",
     if 80 ≤ final_score then "HIGHLY RECOMMENDED"
       else if 65 ≤ final_score then "RECOMMENDED"
       else if 50 ≤ final_score then "CONDITIONAL"
       else "NOT RECOMMENDED",
     some all_scores.length⟩

/-- The reference aggregation the spec describes (section 4.6): arithmetic
mean of each of the five sub-metrics and of overall across all answers,
strengths = sub-metrics with mean ≥ 75, weaknesses = sub-metrics with mean
< 50, single-element placeholders when empty, and the four fixed
recommendation/readiness thresholds ≥80 / ≥65 / ≥50 / else. -/
def referenceFinalReport (l : List AnswerScore) : FinalReport :=
  if l = [] then
    ⟨0, [], [], [], "Unable to assess - no answers provided",
      "NOT RECOMMENDED", none⟩
  else
    let n : ℚ := (l.length : ℚ)
    let subs : List (String × ℚ) :=
      [("accuracy", (l.map (fun s => s.accuracy)).sum / n),
       ("clarity", (l.map (fun s => s.clarity)).sum / n),
       ("depth", (l.map (fun s => s.depth)).sum / n),
       ("relevance", (l.map (fun s => s.relevance)).sum / n),
       ("time_efficiency", (l.map (fun s => s.time_efficiency)).sum / n)]
    let overallMean : ℚ := (l.map (fun s => s.overall)).sum / n
    let strengths := (subs.filter (fun p => decide (75 ≤ p.2))).map
      (fun p => metricLabel p.1)
    let weaknesses := (subs.filter (fun p => decide (p.2 < 50))).map
      (fun p => metricLabel p.1)
    ⟨round2 overallMean,
     subs.map (fun p => (p.1, round2 p.2)) ++ [("overall", round2 overallMean)],
     if strengths = [] then ["None identified"] else strengths,
     if weaknesses = [] then ["None identified"] else weaknesses,
     if 80 ≤ overallMean then "Excellent - Ready for interviews"
       else if 65 ≤ overallMean then "Good - Minor improvements needed"
       else if 50 ≤ overallMean then "Fair - Needs practice"
       else "Needs significant improvement",
     if 80 ≤ overallMean then "HIGHLY RECOMMENDED"
       else if 65 ≤ overallMean then "RECOMMENDED"
       else if 50 ≤ overallMean then "CONDITIONAL"
       else "NOT RECOMMENDED",
     some l.length⟩

theorem avgScore_eq (l : List AnswerScore) (h : l ≠ []) (m : String) :
    avgScore l m = (l.map (metricVal m)).sum / (l.length : ℚ) := by
  simp only [avgScore]
  rw [if_neg (by simpa using h), List.length_map]

theorem metricVal_accuracy : metricVal "accuracy" = fun s => s.accuracy := by
  funext s
  simp [metricVal]

theorem metricVal_clarity : metricVal "clarity" = fun s => s.clarity := by
  funext s
  simp [metricVal]

theorem metricVal_depth : metricVal "depth" = fun s => s.depth := by
  funext s
  simp [metricVal]

theorem metricVal_relevance : metricVal "relevance" = fun s => s.relevance := by
  funext s
  simp [metricVal]

theorem metricVal_time : metricVal "time_efficiency" = fun s => s.time_efficiency := by
  funext s
  simp [metricVal]

theorem metricVal_overall : metricVal "overall" = fun s => s.overall := by
  funext s
  simp [metricVal]

theorem strengths_aligned (l : List AnswerScore) (h : l ≠ []) :
    (metricNames.filter (fun m =>
        (m != "overall") && decide (75 ≤ avgScore l m))).map metricLabel
    = (([("accuracy", (l.map (fun s => s.accuracy)).sum / (l.length : ℚ)),
         ("clarity", (l.map (fun s => s.clarity)).sum / (l.length : ℚ)),
         ("depth", (l.map (fun s => s.depth)).sum / (l.length : ℚ)),
         ("relevance", (l.map (fun s => s.relevance)).sum / (l.length : ℚ)),
         ("time_efficiency",
           (l.map (fun s => s.time_efficiency)).sum / (l.length : ℚ))].filter
        (fun pr => decide (75 ≤ pr.2))).map (fun pr => metricLabel pr.1)) := by
  have ea : avgScore l "accuracy" = (l.map (fun s => s.accuracy)).sum / (l.length : ℚ) := by
    rw [avgScore_eq l h, metricVal_accuracy]
  have ec : avgScore l "clarity" = (l.map (fun s => s.clarity)).sum / (l.length : ℚ) := by
    rw [avgScore_eq l h, metricVal_clarity]
  have ed : avgScore l "depth" = (l.map (fun s => s.depth)).sum / (l.length : ℚ) := by
    rw [avgScore_eq l h, metricVal_depth]
  have er : avgScore l "relevance" = (l.map (fun s => s.relevance)).sum / (l.length : ℚ) := by
    rw [avgScore_eq l h, metricVal_relevance]
  have et : avgScore l "time_efficiency" = (l.map (fun s => s.time_efficiency)).sum / (l.length : ℚ) := by
    rw [avgScore_eq l h, metricVal_time]
  simp only [metricNames, List.filter, ea, ec, ed, er, et]
  cases hA : decide (75 ≤ (l.map (fun s => s.accuracy)).sum / (l.length : ℚ)) <;>
    cases hC : decide (75 ≤ (l.map (fun s => s.clarity)).sum / (l.length : ℚ)) <;>
    cases hD : decide (75 ≤ (l.map (fun s => s.depth)).sum / (l.length : ℚ)) <;>
    cases hR : decide (75 ≤ (l.map (fun s => s.relevance)).sum / (l.length : ℚ)) <;>
    cases hT : decide (75 ≤ (l.map (fun s => s.time_efficiency)).sum / (l.length : ℚ)) <;>
    rfl

theorem weaknesses_aligned (l : List AnswerScore) (h : l ≠ []) :
    (metricNames.filter (fun m =>
        (m != "overall") && decide (avgScore l m < 50))).map metricLabel
    = (([("accuracy", (l.map (fun s => s.accuracy)).sum / (l.length : ℚ)),
         ("clarity", (l.map (fun s => s.clarity)).sum / (l.length : ℚ)),
         ("depth", (l.map (fun s => s.depth)).sum / (l.length : ℚ)),
         ("relevance", (l.map (fun s => s.relevance)).sum / (l.length : ℚ)),
         ("time_efficiency",
           (l.map (fun s => s.time_efficiency)).sum / (l.length : ℚ))].filter
        (fun pr => decide (pr.2 < 50))).map (fun pr => metricLabel pr.1)) := by
  have ea : avgScore l "accuracy" = (l.map (fun s => s.accuracy)).sum / (l.length : ℚ) := by
    rw [avgScore_eq l h, metricVal_accuracy]
  have ec : avgScore l "clarity" = (l.map (fun s => s.clarity)).sum / (l.length : ℚ) := by
    rw [avgScore_eq l h, metricVal_clarity]
  have ed : avgScore l "depth" = (l.map (fun s => s.depth)).sum / (l.length : ℚ) := by
    rw [avgScore_eq l h, metricVal_depth]
  have er : avgScore l "relevance" = (l.map (fun s => s.relevance)).sum / (l.length : ℚ) := by
    rw [avgScore_eq l h, metricVal_relevance]
  have et : avgScore l "time_efficiency" = (l.map (fun s => s.time_efficiency)).sum / (l.length : ℚ) := by
    rw [avgScore_eq l h, metricVal_time]
  simp only [metricNames, List.filter, ea, ec, ed, er, et]
  cases hA : decide ((l.map (fun s => s.accuracy)).sum / (l.length : ℚ) < 50) <;>
    cases hC : decide ((l.map (fun s => s.clarity)).sum / (l.length : ℚ) < 50) <;>
    cases hD : decide ((l.map (fun s => s.depth)).sum / (l.length : ℚ) < 50) <;>
    cases hR : decide ((l.map (fun s => s.relevance)).sum / (l.length : ℚ) < 50) <;>
    cases hT : decide ((l.map (fun s => s.time_efficiency)).sum / (l.length : ℚ) < 50) <;>
    rfl

/-- C6: `calculate_final_score` equals the reference aggregation described by
the spec for every score list (empty zero report, per-metric means,
strength/weakness thresholds and placeholders, and the four
recommendation/readiness thresholds). -/
theorem C6_final_score_refines_reference (l : List AnswerScore) :
    calculate_final_score l = referenceFinalReport l := by
  by_cases h : l = []
  · subst h
    rfl
  · simp only [calculate_final_score, referenceFinalReport, if_neg h]
    rw [strengths_aligned l h, weaknesses_aligned l h]
    simp [avgScore_eq l h, metricVal_accuracy, metricVal_clarity,
      metricVal_depth, metricVal_relevance, metricVal_time, metricVal_overall,
      metricNames]

/-! ### Experience extraction (jd_parser.py lines 51-66, resume_parser.py lines 62-75)

The numeric regex patterns are translated into deterministic character
scanners.  Greediness is faithful: every `\d+`/`\s*`/`\s+`/`?` element is
followed by an element that cannot consume the characters the greedy step
took (digits are never followed by a digit-consuming element, whitespace
never by a whitespace-initial literal), so the regex backtracking can never
produce a match the deterministic scanner misses. -/

def digitsToNat (ds : List Char) : Nat :=
  ds.foldl (fun acc c => 10 * acc + (c.toNat - '0'.toNat)) 0

/-- `\s*`. -/
def skipWs (cs : List Char) : List Char := cs.dropWhile isPySpace

/-- `\s+`. -/
def ws1 : List Char → Option (List Char)
  | c :: rest => if isPySpace c then some (skipWs rest) else none
  | [] => none

/-- `(\d+)`: greedy digit run, captured as an integer. -/
def digits1 (cs : List Char) : Option (Nat × List Char) :=
  let ds := cs.takeWhile Char.isDigit
  if ds.isEmpty then none
  else some (digitsToNat ds, cs.dropWhile Char.isDigit)

/-- An optional literal character (`\+?`, `:?`, `s?`). -/
def optC (c : Char) : List Char → List Char
  | d :: rest => if d == c then rest else d :: rest
  | [] => []

/-- A literal string. -/
def litL (needle : List Char) (cs : List Char) : Option (List Char) :=
  if startsWithL needle cs then some (cs.drop needle.length) else none

/-- `(\d+)\+?\s*years?\s*of\s*experience` (both parsers). -/
def patYearsOfExp (cs : List Char) : Option (Nat × List Char) := do
  let (n, r1) ← digits1 cs
  let r2 ← litL "year".toList (skipWs (optC '+' r1))
  let r3 ← litL "of".toList (skipWs (optC 's' r2))
  let r4 ← litL "experience".toList (skipWs r3)
  pure (n, r4)

/-- `minimum\s+(\d+)\+?\s*years?` (JD parser). -/
def patMinimumYears (cs : List Char) : Option (Nat × List Char) := do
  let r1 ← litL "minimum".toList cs
  let r2 ← ws1 r1
  let (n, r3) ← digits1 r2
  let r4 ← litL "year".toList (skipWs (optC '+' r3))
  pure (n, optC 's' r4)

/-- `(\d+)\+?\s*years?\s*experience\s*required` (JD parser). -/
def patYearsExpRequired (cs : List Char) : Option (Nat × List Char) := do
  let (n, r1) ← digits1 cs
  let r2 ← litL "year".toList (skipWs (optC '+' r1))
  let r3 ← litL "experience".toList (skipWs (optC 's' r2))
  let r4 ← litL "required".toList (skipWs r3)
  pure (n, r4)

/-- `at least\s+(\d+)\+?\s*years?` (JD parser). -/
def patAtLeastYears (cs : List Char) : Option (Nat × List Char) := do
  let r1 ← litL "at least".toList cs
  let r2 ← ws1 r1
  let (n, r3) ← digits1 r2
  let r4 ← litL "year".toList (skipWs (optC '+' r3))
  pure (n, optC 's' r4)

/-- `experience\s*:?\s*(\d+)\+?\s*years?` (resume parser). -/
def patExperienceColonYears (cs : List Char) : Option (Nat × List Char) := do
  let r1 ← litL "experience".toList cs
  let r2 := skipWs (optC ':' (skipWs r1))
  let (n, r3) ← digits1 r2
  let r4 ← litL "year".toList (skipWs (optC '+' r3))
  pure (n, optC 's' r4)

/-- `(\d+)\+?\s*yrs?\s*experience` (resume parser). -/
def patYrsExperience (cs : List Char) : Option (Nat × List Char) := do
  let (n, r1) ← digits1 cs
  let r2 ← litL "yr".toList (skipWs (optC '+' r1))
  let r3 ← litL "experience".toList (skipWs (optC 's' r2))
  pure (n, r3)

/-- `re.search`: the captured value of the leftmost match. -/
def searchPat (p : List Char → Option (Nat × List Char)) :
    List Char → Option Nat
  | [] => (p []).map Prod.fst
  | c :: rest =>
    match p (c :: rest) with
    | some (n, _) => some n
    | none => searchPat p rest

/-- `re.findall` (fuelled; every pattern above consumes at least one
character on success, so fuel `length + 1` is enough): the captured values
of all non-overlapping matches, scanning left to right. -/
def findallAux (p : List Char → Option (Nat × List Char)) :
    Nat → List Char → List Nat
  | 0, _ => []
  | _ + 1, [] => []
  | fuel + 1, c :: rest =>
    match p (c :: rest) with
    | some (n, after) => n :: findallAux p fuel after
    | none => findallAux p fuel rest

def findallPat (p : List Char → Option (Nat × List Char))
    (cs : List Char) : List Nat :=
  findallAux p (cs.length + 1) cs

/-- All integers captured by the four JD patterns across all matches, in
pattern order (the code folds `max` over exactly these). -/
def jdExperienceCaptures (text : String) : List Nat :=
  let cs := lowerL text.toList
  findallPat patYearsOfExp cs ++ findallPat patMinimumYears cs
    ++ findallPat patYearsExpRequired cs ++ findallPat patAtLeastYears cs

/-- JDParser.extract_experience_required. -/
def extract_experience_required (text : String) : Nat :=
  let max_years := (jdExperienceCaptures text).foldl max 0
  if 0 < max_years then max_years else 2

/-- ResumeParser.extract_experience, `years` component: for each of the
three patterns only the FIRST match (`re.search`) contributes, and the
default is 0, not 2. -/
def extract_experience_years (text : String) : Nat :=
  let cs := lowerL text.toList
  let y1 := match searchPat patYearsOfExp cs with
    | some n => max 0 n
    | none => 0
  let y2 := match searchPat patExperienceColonYears cs with
    | some n => max y1 n
    | none => y1
  match searchPat patYrsExperience cs with
  | some n => max y2 n
  | none => y2

theorem le_foldl_max (l : List Nat) (a : Nat) : a ≤ l.foldl max a := by
  induction l generalizing a with
  | nil => simp
  | cons x xs ih => exact le_trans (le_max_left a x) (ih (max a x))

theorem mem_le_foldl_max (l : List Nat) (n : Nat) :
    ∀ a, n ∈ l → n ≤ l.foldl max a := by
  induction l with
  | nil =>
    intro a h
    cases h
  | cons x xs ih =>
    intro a h
    rcases List.mem_cons.mp h with rfl | hx
    · exact le_trans (le_max_right a n) (le_foldl_max xs (max a n))
    · exact ih (max a x) hx

theorem foldl_max_cases (l : List Nat) :
    ∀ a, l.foldl max a = a ∨ l.foldl max a ∈ l := by
  induction l with
  | nil =>
    intro a
    exact Or.inl rfl
  | cons x xs ih =>
    intro a
    rw [List.foldl_cons]
    rcases ih (max a x) with h | h
    · rcases max_choice a x with h' | h'
      · exact Or.inl (h.trans h')
      · exact Or.inr (by rw [h, h']; exact List.mem_cons_self x xs)
    · exact Or.inr (List.mem_cons_of_mem x h)

/-- C7 counterexample: the claim asserts that both the JD and the resume
experience extraction return the maximum integer captured across ALL pattern
matches and default to 2 when nothing matches.  The resume extraction
defaults to 0 on the empty text, and on a text whose first
"N years of experience" occurrence is 3 and second is 7 it returns 3
(first match per pattern only), not the maximum 7. -/
theorem C7_resume_experience_counterexample :
    extract_experience_years "" = 0 ∧ (0 : Nat) ≠ 2
    ∧ extract_experience_years
        "3 years of experience and 7 years of experience" = 3
    ∧ (3 : Nat) ≠ 7
    ∧ extract_experience_required
        "3 years of experience and 7 years of experience" = 7 := by
  refine ⟨by decide, by decide, by decide, by decide, by decide⟩

/-- C7 amended: the JD extraction takes the maximum integer captured across
all matches of its four patterns and returns it when positive, else 2 (also
when the only captures are 0); the resume extraction takes only the FIRST
match of each of its three patterns, maxes those, and defaults to 0. -/
theorem C7_experience_extraction_amended (text : String) :
    (extract_experience_required text =
        if 0 < (jdExperienceCaptures text).foldl max 0
        then (jdExperienceCaptures text).foldl max 0 else 2)
    ∧ ((jdExperienceCaptures text).foldl max 0 = 0 →
        extract_experience_required text = 2)
    ∧ (0 < (jdExperienceCaptures text).foldl max 0 →
        extract_experience_required text ∈ jdExperienceCaptures text
        ∧ ∀ n ∈ jdExperienceCaptures text, n ≤ extract_experience_required text)
    ∧ (extract_experience_years text =
        max (max ((searchPat patYearsOfExp (lowerL text.toList)).getD 0)
          ((searchPat patExperienceColonYears (lowerL text.toList)).getD 0))
          ((searchPat patYrsExperience (lowerL text.toList)).getD 0)) := by
  refine ⟨rfl, ?_, ?_, ?_⟩
  · intro h
    simp [extract_experience_required, h]
  · intro h
    have hres : extract_experience_required text =
        (jdExperienceCaptures text).foldl max 0 := by
      simp [extract_experience_required, h]
    constructor
    · rw [hres]
      rcases foldl_max_cases (jdExperienceCaptures text) 0 with h0 | hmem
      · omega
      · exact hmem
    · intro n hn
      rw [hres]
      exact mem_le_foldl_max _ n 0 hn
  · simp only [extract_experience_years]
    generalize searchPat patYearsOfExp (lowerL text.toList) = o1
    generalize searchPat patExperienceColonYears (lowerL text.toList) = o2
    generalize searchPat patYrsExperience (lowerL text.toList) = o3
    cases o1 <;> cases o2 <;> cases o3 <;> simp

/-- Witness for C7's amended theorem at a concrete input. -/
theorem C7_experience_extraction_amended_witness :
    extract_experience_required "minimum 5 years" ∈
      jdExperienceCaptures "minimum 5 years" ∧
    ∀ n ∈ jdExperienceCaptures "minimum 5 years",
      n ≤ extract_experience_required "minimum 5 years" :=
  (C7_experience_extraction_amended "minimum 5 years").2.2.1 (by decide)

/-! ### Skill extraction (resume_parser.py lines 44-60, jd_parser.py lines 34-49)

Each vocabulary term is matched with `re.search(r'\b' + re.escape(term) +
r'\b', text.lower())`.  `\b` holds at a position iff exactly one of the two
neighbouring characters is a `\w` character (out of bounds counts as
non-word); the vocabulary contains only non-empty terms. -/

def isWordOpt : Option Char → Bool
  | none => false
  | some c => isWordChar c

/-- The pattern `\b term \b` matches at the start of `hay`, where `prev` is
the character immediately before this position. -/
def wordAtL (term hay : List Char) (prev : Option Char) : Bool :=
  startsWithL term hay
    && (isWordOpt prev != isWordOpt term.head?)
    && (isWordOpt term.getLast? != isWordOpt (hay.drop term.length).head?)

/-- `re.search(r'\b' + re.escape(term) + r'\b', hay)`: does any position
match. -/
def wbSearchAux (term : List Char) : Option Char → List Char → Bool
  | prev, [] => wordAtL term [] prev
  | prev, c :: rest => wordAtL term (c :: rest) prev || wbSearchAux term (some c) rest

/-- Does the vocabulary term match the lowered text with word boundaries. -/
def skillFound (skill text : String) : Bool :=
  wbSearchAux skill.toList none (lowerL text.toList)

/-- The `tech_skills` dictionary, identical in ResumeParser.__init__ and
JDParser.__init__, in insertion order. -/
def tech_skills : List (String × List String) :=
  [("languages", ["python", "java", "javascript", "typescript", "c++", "c#",
                  "ruby", "go", "rust", "php", "swift", "kotlin", "scala",
                  "r", "matlab"]),
   ("frameworks", ["react", "angular", "vue", "django", "flask", "fastapi",
                   "spring", "express", "node.js", "nodejs", ".net",
                   "laravel", "rails"]),
   ("databases", ["mysql", "postgresql", "mongodb", "redis", "cassandra",
                  "dynamodb", "oracle", "sql server", "sqlite"]),
   ("cloud", ["aws", "azure", "gcp", "google cloud", "kubernetes", "docker",
              "terraform", "jenkins", "ci/cd"]),
   ("ml_ai", ["tensorflow", "pytorch", "scikit-learn", "keras", "pandas",
              "numpy", "machine learning", "deep learning", "nlp",
              "computer vision"]),
   ("tools", ["git", "jira", "confluence", "agile", "scrum", "rest api",
              "graphql", "microservices"])]

/-- ResumeParser.extract_skills: per category (in insertion order), the
matched terms title-cased in vocabulary order; categories with no match are
omitted. -/
def extract_skills (text : String) : List (String × List String) :=
  (tech_skills.map (fun p =>
    (p.1, (p.2.filter (fun sk => skillFound sk text)).map pyTitle))).filter
    (fun p => !p.2.isEmpty)

/-- JDParser.extract_required_skills: the JD parser duplicates the same
vocabulary and the same matching loop verbatim. -/
def extract_required_skills (text : String) : List (String × List String) :=
  extract_skills text

/-- C8: skill extraction performs the case-insensitive `\b`-delimited
whole-word match of each vocabulary term ("java" matches standalone "Java"
or "java" but not inside "javascript"), returns the matched terms
title-cased in vocabulary order grouped by category, omits categories with
zero matches, and yields an empty mapping for empty input; the JD parser's
extraction is the identical computation. -/
theorem C8_skill_extraction_whole_word (text cat : String)
    (found : List String) :
    ((cat, found) ∈ extract_skills text ↔
      (found ≠ [] ∧ ∃ vocab, (cat, vocab) ∈ tech_skills ∧
        found = (vocab.filter (fun sk => skillFound sk text)).map pyTitle))
    ∧ extract_required_skills text = extract_skills text
    ∧ extract_skills "" = []
    ∧ skillFound "java" "Java developer" = true
    ∧ skillFound "java" "a java developer" = true
    ∧ skillFound "java" "a javascript developer" = false
    ∧ extract_skills "Java required" = [("languages", ["Java"])]
    ∧ extract_skills "javascript required" = [("languages", ["Javascript"])] := by
  refine ⟨⟨?_, ?_⟩, rfl, by decide, by decide, by decide, by decide,
    by decide, by decide⟩
  · intro hmem
    rw [extract_skills, List.mem_filter] at hmem
    obtain ⟨hmap, hpred⟩ := hmem
    rw [List.mem_map] at hmap
    obtain ⟨⟨c, vocab⟩, hv, heq⟩ := hmap
    rw [Prod.mk.injEq] at heq
    obtain ⟨rfl, rfl⟩ := heq
    exact ⟨by simpa using hpred, vocab, hv, rfl⟩
  · rintro ⟨hne, vocab, hv, rfl⟩
    rw [extract_skills, List.mem_filter]
    exact ⟨List.mem_map.mpr ⟨(cat, vocab), hv, rfl⟩, by simpa using hne⟩

/-- Witness for C8 at a concrete input: "Java required" extracts exactly the
languages category with ["Java"], and its membership satisfies the
characterization. -/
theorem C8_skill_extraction_whole_word_witness :
    ("languages", ["Java"]) ∈ extract_skills "Java required" :=
  ((C8_skill_extraction_whole_word "Java required" "languages" ["Java"]).1).mpr
    ⟨by decide, ["python", "java", "javascript", "typescript", "c++", "c#",
      "ruby", "go", "rust", "php", "swift", "kotlin", "scala", "r", "matlab"],
      by decide, by decide⟩

/-- C10: the `\b`-wrapped match misses exact standalone occurrences of terms
ending in a non-word character: "c++" is in the languages vocabulary and is
a whitespace-delimited token of "my c++ code", yet no skill is extracted;
the trailing `\b` can only ever succeed when "c++" is immediately followed
by a word character, as in "my c++x". -/
theorem C10_word_boundary_misses_cpp :
    "c++" ∈ (tech_skills.lookup "languages").getD []
    ∧ "c++" ∈ pySplit "my c++ code"
    ∧ skillFound "c++" "my c++ code" = false
    ∧ extract_skills "my c++ code" = []
    ∧ skillFound "c++" "my c++x" = true := by
  refine ⟨by decide, by decide, by decide, by decide, by decide⟩

/-! ### InterviewEngine.QUESTION_BANK and generate_question
(interview_engine.py lines 24-79 and 84-117) -/

def QUESTION_BANK : List (String × List (String × List String)) :=
  [("easy",
    [("technical",
      ["What is {skill} and where have you used it?",
       "Explain basic features of {skill}."]),
     ("conceptual",
      ["What problem does {skill} solve?",
       "Explain core concepts of {skill}."]),
     ("behavioral",
      ["Tell me about a project you enjoyed working on.",
       "How do you approach learning a new technology?"]),
     ("scenario-based",
      ["How would you debug a simple error in your application?",
       "What steps do you take when your code doesn’t work?"])]),
   ("medium",
    [("technical",
      ["How would you optimize performance in a {skill} project?",
       "Explain common challenges you faced while using {skill}."]),
     ("conceptual",
      ["Compare {skill} with an alternative technology.",
       "Explain trade-offs involved when using {skill}."]),
     ("behavioral",
      ["Describe a challenging project and how you handled it.",
       "Tell me about a time you worked under pressure."]),
     ("scenario-based",
      ["How would you design a scalable web application?",
       "How would you handle a production bug reported by users?"])]),
   ("hard",
    [("technical",
      ["Design a scalable system using {skill} for millions of users.",
       "How would you improve fault tolerance in a {skill} system?"]),
     ("conceptual",
      ["Explain internal architecture or algorithms behind {skill}.",
       "Discuss limitations of {skill} in large-scale systems."]),
     ("behavioral",
      ["Tell me about a critical technical decision you made.",
       "How do you balance speed vs quality in deadlines?"]),
     ("scenario-based",
      ["A production system goes down suddenly. Walk me through your response.",
       "How would you redesign a legacy system for scalability?"])])]

/-- `QUESTION_BANK[difficulty][question_type]`; an unknown key raises
KeyError in Python, modelled as `none`. -/
def bankLookup (difficulty question_type : String) : Option (List String) :=
  (QUESTION_BANK.lookup difficulty).bind (fun m => m.lookup question_type)

/-- `template.format(skill=skill)`: replace every `{skill}` field of the
template (the bank's templates contain no other fields). -/
def substSkillL (skill : List Char) : List Char → List Char
  | '\x7b' :: 's' :: 'k' :: 'i' :: 'l' :: 'l' :: '\x7d' :: rest =>
    skill ++ substSkillL skill rest
  | c :: rest => c :: substSkillL skill rest
  | [] => []

def formatSkill (template skill : String) : String :=
  ⟨substSkillL skill.toList template.toList⟩

/-- InterviewEngine.generate_question.  The arguments are the "skills" /
"required_skills" dicts of the resume and JD profiles; the two
`random.choice` calls are modelled by the index parameters `si`, `ti`
(reduced modulo the list length, so every possible uniform choice is
covered); `list(set(...))` is modelled by `List.dedup` (Python's set order
is arbitrary; only membership matters). -/
def generate_question
    (resume_skills_dict jd_skills_dict : List (String × List String))
    (difficulty question_type : String) (si ti : Nat) :
    Option (String × List String) :=
  let resume_skills := (resume_skills_dict.map Prod.snd).flatten
  let jd_skills := (jd_skills_dict.map Prod.snd).flatten
  let combined_skills := (resume_skills ++ jd_skills).dedup
  let skill := if combined_skills.isEmpty then "programming"
    else combined_skills.getD (si % combined_skills.length) "programming"
  (bankLookup difficulty question_type).map (fun templates =>
    let question_template := templates.getD (ti % templates.length) ""
    (formatSkill question_template skill,
     [skill, question_type, difficulty]))

theorem lookup_mem_values {α β : Type} [BEq α] :
    ∀ (l : List (α × β)) (k : α) (v : β),
      l.lookup k = some v → v ∈ l.map Prod.snd := by
  intro l
  induction l with
  | nil =>
    intro k v h
    cases h
  | cons p t ih =>
    intro k v h
    obtain ⟨a, b⟩ := p
    simp only [List.lookup] at h
    cases hk : (k == a) with
    | true =>
      rw [hk] at h
      injection h with h'
      subst h'
      exact List.mem_cons_self _ _
    | false =>
      rw [hk] at h
      exact List.mem_cons_of_mem _ (ih k v h)

theorem getD_mem {α : Type} :
    ∀ (l : List α) (i : Nat) (d : α), i < l.length → l.getD i d ∈ l := by
  intro l
  induction l with
  | nil =>
    intro i d h
    exact absurd h (Nat.not_lt_zero i)
  | cons x t ih =>
    intro i d h
    cases i with
    | zero => exact List.mem_cons_self x t
    | succ n => exact List.mem_cons_of_mem x (ih n d (by simpa using h))

/-- Every template list in the bank is non-empty (each holds exactly two
templates). -/
theorem bank_templates_ne_nil (d q : String) (ts : List String)
    (h : bankLookup d q = some ts) : ts ≠ [] := by
  unfold bankLookup at h
  cases hb : QUESTION_BANK.lookup d with
  | none =>
    rw [hb] at h
    cases h
  | some inner =>
    rw [hb] at h
    simp only [Option.bind] at h
    have h1 := lookup_mem_values QUESTION_BANK d inner hb
    have h2 := lookup_mem_values inner q ts h
    have hall : ∀ m ∈ QUESTION_BANK.map Prod.snd,
        ∀ ts' ∈ m.map Prod.snd, ts' ≠ [] := by decide
    exact hall inner h1 ts h2

/-- C9: whenever `generate_question` succeeds, the returned expected-topics
list is exactly [skill, question-type, difficulty]; the question text is one
of the two templates of (difficulty, question-type) with the skill
substituted for its `{skill}` placeholder(s); and the skill is a member of
the combined resume and JD skill strings, or "programming" when that union
is empty. -/
theorem C9_generate_question_spec
    (resume_skills_dict jd_skills_dict : List (String × List String))
    (difficulty question_type : String) (si ti : Nat)
    (q : String) (topics : List String)
    (h : generate_question resume_skills_dict jd_skills_dict difficulty
        question_type si ti = some (q, topics)) :
    ∃ skill templates tmpl,
      bankLookup difficulty question_type = some templates
      ∧ tmpl ∈ templates
      ∧ q = formatSkill tmpl skill
      ∧ topics = [skill, question_type, difficulty]
      ∧ ((((resume_skills_dict.map Prod.snd).flatten
            ++ (jd_skills_dict.map Prod.snd).flatten) = [] ∧ skill = "programming")
        ∨ skill ∈ (resume_skills_dict.map Prod.snd).flatten
            ++ (jd_skills_dict.map Prod.snd).flatten) := by
  simp only [generate_question] at h
  cases hb : bankLookup difficulty question_type with
  | none =>
    rw [hb] at h
    cases h
  | some templates =>
    rw [hb] at h
    simp only [Option.map] at h
    injection h with h'
    rw [Prod.mk.injEq] at h'
    obtain ⟨hq, ht⟩ := h'
    have hts := bank_templates_ne_nil difficulty question_type templates hb
    have htlen : 0 < templates.length := List.length_pos.mpr hts
    refine ⟨_, templates, templates.getD (ti % templates.length) "",
      rfl, getD_mem templates _ "" (Nat.mod_lt ti htlen), hq.symm, ht.symm, ?_⟩
    by_cases hc : (((resume_skills_dict.map Prod.snd).flatten
        ++ (jd_skills_dict.map Prod.snd).flatten)).dedup.isEmpty
    · rw [if_pos hc]
      left
      refine ⟨?_, rfl⟩
      have := List.isEmpty_iff.mp hc
      exact (List.dedup_eq_nil _).mp this
    · rw [if_neg hc]
      right
      have hne : (((resume_skills_dict.map Prod.snd).flatten
          ++ (jd_skills_dict.map Prod.snd).flatten)).dedup ≠ [] := by
        intro hnil
        exact hc (by simp [hnil])
      have hlen : 0 < (((resume_skills_dict.map Prod.snd).flatten
          ++ (jd_skills_dict.map Prod.snd).flatten)).dedup.length :=
        List.length_pos.mpr hne
      exact List.dedup_subset _ (getD_mem _ _ _ (Nat.mod_lt si hlen))

/-- Witness for C9 at a concrete input: one resume skill "Python", empty JD
skills, easy/technical, both random indices 0. -/
theorem C9_generate_question_spec_witness :
    ∃ skill templates tmpl,
      bankLookup "easy" "technical" = some templates
      ∧ tmpl ∈ templates
      ∧ "What is Python and where have you used it?" = formatSkill tmpl skill
      ∧ ["Python", "technical", "easy"] = [skill, "technical", "easy"]
      ∧ (((([("languages", ["Python"])].map Prod.snd).flatten
            ++ (([] : List (String × List String)).map Prod.snd).flatten) = []
          ∧ skill = "programming")
        ∨ skill ∈ ([("languages", ["Python"])].map Prod.snd).flatten
            ++ (([] : List (String × List String)).map Prod.snd).flatten) :=
  C9_generate_question_spec [("languages", ["Python"])] [] "easy" "technical"
    0 0 "What is Python and where have you used it?"
    ["Python", "technical", "easy"] (by decide)
